import Mathlib

/-!
Verification development for the gpxParser repository (src/gpxParser.js).

The repository exposes two asynchronous entry points, `getTrackPointsData`
and `GetMetadata`.  Each reads a file, parses it with xml2js, and then
navigates the resulting JavaScript object tree.  We shallowly embed:

* the JavaScript value universe produced by xml2js (`JsVal`),
* JavaScript property and index access, which throw a TypeError when the
  receiver is `undefined` (`JsVal.getProp`, `JsVal.getIndex`), modelled
  with `Except Unit`,
* JavaScript truthiness (`truthy`) and the permissive numeric parsers
  `parseFloat` / `parseInt` (numbers are modelled as rationals with an
  explicit NaN marker, since no claim probes binary floating point),
* the two extraction pipelines, translated statement by statement from
  the source; the file loader and the XML parser are external black
  boxes per the specification and appear as function parameters.

An abstract document layer (`GpxDoc`) models the xml2js output of a GPX
document: each element name maps to the array of its occurrences, a key
being present only when at least one occurrence exists (the xml2js
convention), and each node carries its attribute map under the "$" key.
-/

/-- JavaScript number as produced by `parseFloat` / `parseInt`: either the
not-a-number marker or an exact rational value. -/
inductive JsNum where
  | nan : JsNum
  | rat : ℚ → JsNum
deriving DecidableEq

/-- JavaScript values reachable in the xml2js object tree together with
`undefined`, which property lookup on a missing key produces. -/
inductive JsVal where
  | undefined : JsVal
  | str : String → JsVal
  | num : JsNum → JsVal
  | arr : List JsVal → JsVal
  | obj : List (String × JsVal) → JsVal

/-- Lookup of a key in a JavaScript object: the first binding wins and a
missing key yields `undefined`. -/
def findField : List (String × JsVal) → String → JsVal
  | [], _ => .undefined
  | (k, v) :: rest, key => if k = key then v else findField rest key

/-- Property access `v.key`.  On `undefined` it throws a TypeError
(modelled as `Except.error ()`); on an object it looks the key up; on any
other value none of the keys used by this program is a built-in property,
so the result is `undefined`. -/
def JsVal.getProp : JsVal → String → Except Unit JsVal
  | .undefined, _ => .error ()
  | .obj fields, key => .ok (findField fields key)
  | _, _ => .ok .undefined

/-- Index access `v[n]`.  On `undefined` it throws a TypeError; on an
array it yields the element or `undefined` past the end; on a string it
yields the one-character string at that position; on an object it looks
up the decimal rendering of the index. -/
def JsVal.getIndex : JsVal → Nat → Except Unit JsVal
  | .undefined, _ => .error ()
  | .arr xs, n => .ok (xs.getD n .undefined)
  | .str s, n =>
    .ok (match s.toList.get? n with
      | some c => .str (String.singleton c)
      | none => .undefined)
  | .obj fields, n => .ok (findField fields (Nat.repr n))
  | .num _, _ => .ok .undefined

/-- JavaScript truthiness of the values above: `undefined`, the empty
string, `0` and `NaN` are falsy; arrays and objects are always truthy. -/
def truthy : JsVal → Bool
  | .undefined => false
  | .str s => !(s == "")
  | .num .nan => false
  | .num (.rat q) => !(q == 0)
  | .arr _ => true
  | .obj _ => true

/-- Digit list to natural number, most significant digit first. -/
def digitsToNat (ds : List Char) : ℕ :=
  ds.foldl (fun a c => a * 10 + (c.toNat - 48)) 0

/-- Optional leading sign; returns whether the number is negated and the
remaining characters. -/
def parseSign : List Char → Bool × List Char
  | '-' :: rest => (true, rest)
  | '+' :: rest => (false, rest)
  | cs => (false, cs)

/-- Rational value of a decimal literal with sign `neg`, integer part
`ip`, fraction digits of value `fp` and count `fplen`. -/
def decimalRat (neg : Bool) (ip fp fplen : ℕ) : ℚ :=
  let mag : ℚ := (ip : ℚ) + (fp : ℚ) / (10 : ℚ) ^ fplen
  if neg then -mag else mag

/-- Rational value of a signed integer literal. -/
def intRat (neg : Bool) (n : ℕ) : ℚ :=
  if neg then -(n : ℚ) else (n : ℚ)

/-- Modelled from the spec: the permissive decimal parsing of the
JavaScript built-in `parseFloat`, restricted to plain decimal notation
(optional sign, integer digits, optional fraction digits); when no digit
is found the result is the not-a-number marker.  Exponent notation and
the Infinity literal are not exercised by this program. -/
def parseFloatStr (s : String) : JsNum :=
  let cs := s.toList.dropWhile Char.isWhitespace
  let (neg, cs1) := parseSign cs
  let ip := cs1.takeWhile Char.isDigit
  let cs2 := cs1.dropWhile Char.isDigit
  let fp := match cs2 with
    | '.' :: rest => rest.takeWhile Char.isDigit
    | _ => []
  if ip = [] ∧ fp = [] then .nan
  else .rat (decimalRat neg (digitsToNat ip) (digitsToNat fp) fp.length)

/-- Modelled from the spec: the JavaScript built-in `parseInt` with the
default radix on decimal input (optional sign, longest digit prefix;
not-a-number when no digit is found). -/
def parseIntStr (s : String) : JsNum :=
  let cs := s.toList.dropWhile Char.isWhitespace
  let (neg, cs1) := parseSign cs
  let ds := cs1.takeWhile Char.isDigit
  if ds = [] then .nan
  else .rat (intRat neg (digitsToNat ds))

/-- JavaScript ToString on the values the numeric parsers and the Date
constructor can receive here (strings and `undefined`; the remaining
cases are given their JavaScript renderings but are never reached by the
extraction functions). -/
def jsToString : JsVal → String
  | .undefined => "undefined"
  | .str s => s
  | .num .nan => "NaN"
  | .num (.rat _) => ""
  | .arr [] => ""
  | .arr [.str s] => s
  | .arr _ => ""
  | .obj _ => "[object Object]"

/-- The JavaScript call `parseFloat(v)`: convert to string, then parse. -/
def jsParseFloat (v : JsVal) : JsNum :=
  parseFloatStr (jsToString v)

/-- The JavaScript call `parseInt(v)`: convert to string, then parse. -/
def jsParseInt (v : JsVal) : JsNum :=
  parseIntStr (jsToString v)

/-- Output record of `getTrackPointsData`, translated from the object
literal `{ lat, lon, heartRate, timestamp, elevation }` in the source:
`lat` and `lon` are always numbers (possibly NaN), the other three
fields start as `null` and are only filled when the guarding condition
holds. -/
structure TrackPoint where
  lat : JsNum
  lon : JsNum
  heartRate : Option JsNum
  timestamp : Option String
  elevation : Option JsNum
deriving DecidableEq

/-- Output record of `GetMetadata`: the raw xml2js nodes for the first
name, desc and author children, or `null`. -/
structure MetadataRec where
  name : Option JsVal
  desc : Option JsVal
  author : Option JsVal

/-- Body of the `trackPoints.map((point) => ...)` callback in
`getTrackPointsData` (source lines 50 to 84), for one track point node.
The rendering of `new Date(text).toLocaleString()` is abstracted by the
`render` parameter since it depends on the process time zone and locale;
every other step is translated literally, including the unguarded
navigation through the extensions block. -/
def pointData (render : String → String) (point : JsVal) : Except Unit TrackPoint := do
  let attrs ← point.getProp "$"
  let latRaw ← attrs.getProp "lat"
  let lonRaw ← attrs.getProp "lon"
  let lat := jsParseFloat latRaw
  let lon := jsParseFloat lonRaw
  let eleArr ← point.getProp "ele"
  let elevation ← (if truthy eleArr then do
      let e0 ← eleArr.getIndex 0
      pure (if truthy e0 then some (jsParseFloat e0) else none)
    else pure (none : Option JsNum))
  let timeArr ← point.getProp "time"
  let timestamp ← (if truthy timeArr then do
      let t0 ← timeArr.getIndex 0
      pure (if truthy t0 then some (render (jsToString t0)) else none)
    else pure (none : Option String))
  let extArr ← point.getProp "extensions"
  let heartRate ← (if truthy extArr then do
      let e0 ← extArr.getIndex 0
      let tpxArr ← e0.getProp "gpxtpx:TrackPointExtension"
      let t0 ← tpxArr.getIndex 0
      let hrArr ← t0.getProp "gpxtpx:hr"
      let h0 ← hrArr.getIndex 0
      pure (if truthy h0 then some (jsParseInt h0) else none)
    else pure (none : Option JsNum))
  pure { lat := lat, lon := lon, heartRate := heartRate,
         timestamp := timestamp, elevation := elevation }

/-- The call `trackPoints.map(callback)`: throws a TypeError unless the
receiver is an array, applies the callback in order, and aborts on the
first thrown error. -/
def mapPoints (render : String → String) : List JsVal → Except Unit (List TrackPoint)
  | [] => .ok []
  | v :: vs => do
    let r ← pointData render v
    let rs ← mapPoints render vs
    pure (r :: rs)

/-- Array check performed implicitly by calling `.map` on the value: a
non-array receiver has no callable `map` and throws. -/
def jsArrayElems : JsVal → Except Unit (List JsVal)
  | .arr xs => .ok xs
  | _ => .error ()

/-- Track-point extraction over an already parsed document, translated
from the try block of `getTrackPointsData` (source lines 48 to 87):
`result.gpx.trk[0].trkseg[0].trkpt` followed by the per-point map. -/
def extractTrackPoints (render : String → String) (result : JsVal) :
    Except Unit (List TrackPoint) := do
  let gpx ← result.getProp "gpx"
  let trkArr ← gpx.getProp "trk"
  let trk0 ← trkArr.getIndex 0
  let segArr ← trk0.getProp "trkseg"
  let seg0 ← segArr.getIndex 0
  let trackPoints ← seg0.getProp "trkpt"
  let pts ← jsArrayElems trackPoints
  mapPoints render pts

/-- Metadata extraction over an already parsed document, translated from
the try block of `GetMetadata` (source lines 123 to 134): the metadata
node defaults to the empty object, and each field is the first child
node when the child array is truthy, else `null`. -/
def extractMetadata (result : JsVal) : Except Unit MetadataRec := do
  let gpx ← result.getProp "gpx"
  let mdArr ← gpx.getProp "metadata"
  let metadata ← (if truthy mdArr then mdArr.getIndex 0 else pure (JsVal.obj []))
  let nameArr ← metadata.getProp "name"
  let name ← (if truthy nameArr then do
      let v ← nameArr.getIndex 0
      pure (some v)
    else pure (none : Option JsVal))
  let descArr ← metadata.getProp "desc"
  let desc ← (if truthy descArr then do
      let v ← descArr.getIndex 0
      pure (some v)
    else pure (none : Option JsVal))
  let authorArr ← metadata.getProp "author"
  let author ← (if truthy authorArr then do
      let v ← authorArr.getIndex 0
      pure (some v)
    else pure (none : Option JsVal))
  pure { name := name, desc := desc, author := author }

/-- Failure taxonomy of the specification: read failures surface as
`documentUnreadable`, parser failures as `malformedDocument`, and every
error thrown inside the try block (unguarded navigation) is caught and
surfaces as `structureMismatch`. -/
inductive GpxError where
  | documentUnreadable : GpxError
  | malformedDocument : GpxError
  | structureMismatch : GpxError
deriving DecidableEq

/-- Entry point `getTrackPointsData`, translated from source lines 32 to
94.  The document loader `fs` and the XML tree parser `parseXml` are the
external black boxes of the specification, passed as parameters; the
promise is modelled by `Except GpxError`. -/
def getTrackPointsData (render : String → String)
    (fs : String → Except Unit String)
    (parseXml : String → Except Unit JsVal) (path : String) :
    Except GpxError (List TrackPoint) :=
  match fs path with
  | .error _ => .error .documentUnreadable
  | .ok data =>
    match parseXml data with
    | .error _ => .error .malformedDocument
    | .ok result =>
      match extractTrackPoints render result with
      | .ok datos => .ok datos
      | .error _ => .error .structureMismatch

/-- Entry point `GetMetadata`, translated from source lines 107 to 141,
with the same black-box parameters as `getTrackPointsData`. -/
def GetMetadata (fs : String → Except Unit String)
    (parseXml : String → Except Unit JsVal) (path : String) :
    Except GpxError MetadataRec :=
  match fs path with
  | .error _ => .error .documentUnreadable
  | .ok data =>
    match parseXml data with
    | .error _ => .error .malformedDocument
    | .ok result =>
      match extractMetadata result with
      | .ok md => .ok md
      | .error _ => .error .structureMismatch

/-- Content of a `gpxtpx:TrackPointExtension` wrapper: the text of its
`gpxtpx:hr` child, when that child exists. -/
structure TpxBlock where
  hr : Option String
deriving DecidableEq

/-- Content of an `extensions` child of a track point: the wrapper, when
it exists with the expected name; `none` models an extensions block
whose children (if any) are not the expected wrapper. -/
structure ExtBlock where
  tpx : Option TpxBlock
deriving DecidableEq

/-- Abstract `trkpt` element: the texts of its `lat` and `lon`
attributes and of its `ele` and `time` children, and its `extensions`
block, each when present. -/
structure TrkPt where
  lat : Option String
  lon : Option String
  ele : Option String
  time : Option String
  ext : Option ExtBlock
deriving DecidableEq

/-- Abstract `trkseg` element: its list of `trkpt` children. -/
structure TrkSeg where
  trkpts : List TrkPt
deriving DecidableEq

/-- Abstract `trk` element: its list of `trkseg` children. -/
structure Trk where
  trksegs : List TrkSeg
deriving DecidableEq

/-- Abstract `metadata` element: the texts of its `name`, `desc` and
`author` children, each when present. -/
structure MetaBlock where
  name : Option String
  desc : Option String
  author : Option String
deriving DecidableEq

/-- Abstract GPX document: the `trk` children of the root and the
optional `metadata` block. -/
structure GpxDoc where
  trks : List Trk
  metadata : Option MetaBlock
deriving DecidableEq

/-- Attribute entry of the xml2js attribute object: present only when
the attribute exists. -/
def attrEntry (key : String) (v : Option String) : List (String × JsVal) :=
  match v with
  | none => []
  | some s => [(key, .str s)]

/-- Child-element entry of an xml2js node: a present child of text `s`
appears as the key mapped to the one-element array `[s]`; an absent
child contributes no key at all (the xml2js convention). -/
def childEntry (key : String) (v : Option String) : List (String × JsVal) :=
  match v with
  | none => []
  | some s => [(key, .arr [.str s])]

/-- Modelled from the spec: xml2js tree of a TrackPointExtension
wrapper. -/
def TpxBlock.toJsVal (t : TpxBlock) : JsVal :=
  .obj (childEntry "gpxtpx:hr" t.hr)

/-- Modelled from the spec: xml2js tree of an extensions block; when the
expected wrapper is missing the node simply has no such key. -/
def ExtBlock.toJsVal (e : ExtBlock) : JsVal :=
  .obj (match e.tpx with
    | none => []
    | some t => [("gpxtpx:TrackPointExtension", .arr [t.toJsVal])])

/-- Modelled from the spec: xml2js tree of a `trkpt` element.  The
external XML tree parser is a black box per the specification; following
its description, each point node carries an attribute map (under the
xml2js key "$") in which missing attributes are simply absent, and each
present child element appears as a one-element array of its text. -/
def TrkPt.toJsVal (p : TrkPt) : JsVal :=
  .obj ([("$", .obj (attrEntry "lat" p.lat ++ attrEntry "lon" p.lon))]
    ++ childEntry "ele" p.ele
    ++ childEntry "time" p.time
    ++ (match p.ext with
      | none => []
      | some e => [("extensions", .arr [e.toJsVal])]))

/-- Modelled from the spec: xml2js tree of a `trkseg` element.  A
segment with zero points has no `trkpt` key at all, since xml2js creates
a key only for child names that occur. -/
def TrkSeg.toJsVal (s : TrkSeg) : JsVal :=
  .obj (match s.trkpts with
    | [] => []
    | ps => [("trkpt", .arr (ps.map TrkPt.toJsVal))])

/-- Modelled from the spec: xml2js tree of a `trk` element. -/
def Trk.toJsVal (t : Trk) : JsVal :=
  .obj (match t.trksegs with
    | [] => []
    | ss => [("trkseg", .arr (ss.map TrkSeg.toJsVal))])

/-- Modelled from the spec: xml2js tree of a `metadata` element. -/
def MetaBlock.toJsVal (m : MetaBlock) : JsVal :=
  .obj (childEntry "name" m.name ++ childEntry "desc" m.desc
    ++ childEntry "author" m.author)

/-- Modelled from the spec: xml2js tree of a whole GPX document; the
parse result is an object whose single key is the root element name. -/
def GpxDoc.toJsVal (d : GpxDoc) : JsVal :=
  .obj [("gpx", .obj (
    (match d.trks with
      | [] => []
      | ts => [("trk", .arr (ts.map Trk.toJsVal))])
    ++ (match d.metadata with
      | none => []
      | some m => [("metadata", .arr [m.toJsVal])])))]

/-- A track point whose extensions block (when present) has the nested
shape the unguarded navigation expects: the wrapper exists and carries a
`gpxtpx:hr` child.  Points violating this make the whole extraction
throw. -/
def TrkPt.benign (p : TrkPt) : Bool :=
  match p.ext with
  | none => true
  | some e =>
    match e.tpx with
    | none => false
    | some t => t.hr.isSome

/-- Record that the per-point callback produces for a benign point,
expressed directly on the abstract point. -/
def TrkPt.record (render : String → String) (p : TrkPt) : TrackPoint where
  lat := match p.lat with
    | some s => parseFloatStr s
    | none => JsNum.nan
  lon := match p.lon with
    | some s => parseFloatStr s
    | none => JsNum.nan
  heartRate := match p.ext with
    | some e =>
      match e.tpx with
      | some t =>
        match t.hr with
        | some s => if truthy (.str s) then some (parseIntStr s) else none
        | none => none
      | none => none
    | none => none
  timestamp := match p.time with
    | some s => if truthy (.str s) then some (render s) else none
    | none => none
  elevation := match p.ele with
    | some s => if truthy (.str s) then some (parseFloatStr s) else none
    | none => none

/-- Metadata record determined by the abstract metadata block alone. -/
def metaRecordOf : Option MetaBlock → MetadataRec
  | none => { name := none, desc := none, author := none }
  | some m =>
    { name := m.name.map JsVal.str
      desc := m.desc.map JsVal.str
      author := m.author.map JsVal.str }

/-- Document loader stub that returns fixed contents for every path. -/
def fsOf (contents : String) : String → Except Unit String := fun _ => .ok contents

/-- XML parser stub that returns a fixed tree for every input text. -/
def parseOf (v : JsVal) : String → Except Unit JsVal := fun _ => .ok v

/-- Track point with no attributes, children or extensions. -/
def ptPlain : TrkPt :=
  { lat := none, lon := none, ele := none, time := none, ext := none }

/-- Track point carrying a correctly nested heart-rate extension of
text "150". -/
def ptHr150 : TrkPt :=
  { lat := none, lon := none, ele := none, time := none,
    ext := some { tpx := some { hr := some "150" } } }

/-- Track point whose extensions block lacks the expected wrapper. -/
def ptBadExt : TrkPt :=
  { lat := none, lon := none, ele := none, time := none,
    ext := some { tpx := none } }

/-- Track point with a correctly nested heart-rate element of empty
text. -/
def ptHrEmpty : TrkPt :=
  { lat := none, lon := none, ele := none, time := none,
    ext := some { tpx := some { hr := some "" } } }

/-- Track point whose ele, time and heart-rate children all exist with
empty text. -/
def ptEmptyTexts : TrkPt :=
  { lat := none, lon := none, ele := some "", time := some "",
    ext := some { tpx := some { hr := some "" } } }

/-- Track point with elevation text 123.4 and an ISO-8601 time text. -/
def ptEleTime : TrkPt :=
  { lat := none, lon := none, ele := some "123.4",
    time := some "2024-01-01T10:00:00Z", ext := none }

/-- Track point with the lat attribute missing and a non-numeric lon
attribute. -/
def ptBadLatLon : TrkPt :=
  { lat := none, lon := some "abc", ele := none, time := none, ext := none }

/-- Document whose first track has one segment containing zero track
points. -/
def docSegEmpty : GpxDoc :=
  { trks := [{ trksegs := [{ trkpts := [] }] }], metadata := none }

/-- Document whose first segment holds two benign track points. -/
def docTwoPts : GpxDoc :=
  { trks := [{ trksegs := [{ trkpts := [ptPlain, ptHr150] }] }], metadata := none }

/-- Document with no trk element but with a metadata block. -/
def docNoTrk : GpxDoc :=
  { trks := [],
    metadata := some { name := some "My Track", desc := none, author := none } }

/-- Document with one plain track point and no metadata block. -/
def docNoMeta : GpxDoc :=
  { trks := [{ trksegs := [{ trkpts := [ptPlain] }] }], metadata := none }

/-- Document whose single track point has a malformed extensions
block. -/
def docBadExt : GpxDoc :=
  { trks := [{ trksegs := [{ trkpts := [ptBadExt] }] }], metadata := none }

/-- Document whose single track point carries an empty heart-rate
element. -/
def docHrEmpty : GpxDoc :=
  { trks := [{ trksegs := [{ trkpts := [ptHrEmpty] }] }], metadata := none }

/-- Document whose single track point has missing and non-numeric
coordinate attributes. -/
def docBadLatLon : GpxDoc :=
  { trks := [{ trksegs := [{ trkpts := [ptBadLatLon] }] }], metadata := none }

@[simp]
theorem exceptBind_ok {α β ε : Type} (a : α) (f : α → Except ε β) :
    (Except.ok a >>= f : Except ε β) = f a := rfl

@[simp]
theorem exceptBind_error {α β ε : Type} (e : ε) (f : α → Except ε β) :
    (Except.error e >>= f : Except ε β) = Except.error e := rfl

@[simp]
theorem exceptPure_eq {α ε : Type} (a : α) :
    (pure a : Except ε α) = Except.ok a := rfl

theorem parseFloat_undefined : parseFloatStr "undefined" = .nan := rfl

set_option maxHeartbeats 1600000 in
/-- Computation of the per-point callback on the tree of a benign
abstract point. -/
theorem pointData_toJsVal (render : String → String) (p : TrkPt)
    (hb : p.benign = true) :
    pointData render p.toJsVal = .ok (p.record render) := by
  obtain ⟨la, lo, el, ti, ex⟩ := p
  cases ex with
  | none =>
    cases la <;> cases lo <;> cases el <;> cases ti <;>
      simp [pointData, TrkPt.toJsVal, TrkPt.record, JsVal.getProp, JsVal.getIndex,
        findField, attrEntry, childEntry, truthy, jsParseFloat, jsParseInt,
        jsToString, parseFloat_undefined]
  | some e =>
    obtain ⟨tpx⟩ := e
    cases tpx with
    | none => simp [TrkPt.benign] at hb
    | some t =>
      obtain ⟨hr⟩ := t
      cases hr with
      | none => simp [TrkPt.benign] at hb
      | some s =>
        cases la <;> cases lo <;> cases el <;> cases ti <;>
          simp [pointData, TrkPt.toJsVal, TrkPt.record, ExtBlock.toJsVal,
            TpxBlock.toJsVal, JsVal.getProp, JsVal.getIndex, findField,
            attrEntry, childEntry, truthy, jsParseFloat, jsParseInt,
            jsToString, parseFloat_undefined]

set_option maxHeartbeats 1600000 in
/-- Computation of the per-point callback on the tree of a point whose
extensions block is present but lacks the expected nested shape: the
unguarded navigation throws. -/
theorem pointData_toJsVal_malformed (render : String → String) (p : TrkPt)
    (hb : p.benign = false) :
    pointData render p.toJsVal = .error () := by
  obtain ⟨la, lo, el, ti, ex⟩ := p
  cases ex with
  | none => simp [TrkPt.benign] at hb
  | some e =>
    obtain ⟨tpx⟩ := e
    cases tpx with
    | none =>
      cases la <;> cases lo <;> cases el <;> cases ti <;>
        simp [pointData, TrkPt.toJsVal, ExtBlock.toJsVal, JsVal.getProp,
          JsVal.getIndex, findField, attrEntry, childEntry, truthy,
          jsParseFloat, jsParseInt, jsToString]
    | some t =>
      obtain ⟨hr⟩ := t
      cases hr with
      | none =>
        cases la <;> cases lo <;> cases el <;> cases ti <;>
          simp [pointData, TrkPt.toJsVal, ExtBlock.toJsVal, TpxBlock.toJsVal,
            JsVal.getProp, JsVal.getIndex, findField, attrEntry, childEntry,
            truthy, jsParseFloat, jsParseInt, jsToString]
      | some s => simp [TrkPt.benign] at hb

/-- Computation of the map over the point list when every point is
benign. -/
theorem mapPoints_toJsVal (render : String → String) (pts : List TrkPt)
    (hb : ∀ p ∈ pts, p.benign = true) :
    mapPoints render (pts.map TrkPt.toJsVal) = .ok (pts.map (TrkPt.record render)) := by
  induction pts with
  | nil => rfl
  | cons p rest ih =>
    have hp : p.benign = true := hb p (by simp)
    have hrest : ∀ q ∈ rest, q.benign = true := fun q hq => hb q (by simp [hq])
    simp [mapPoints, pointData_toJsVal render p hp, ih hrest]

/-- Computation of the map over the point list when some point is not
benign: the whole map throws. -/
theorem mapPoints_toJsVal_err (render : String → String) (pts : List TrkPt)
    (hb : ∃ p ∈ pts, p.benign = false) :
    mapPoints render (pts.map TrkPt.toJsVal) = .error () := by
  induction pts with
  | nil => simp at hb
  | cons p rest ih =>
    obtain ⟨q, hq, hqb⟩ := hb
    cases hq with
    | head =>
      simp [mapPoints, pointData_toJsVal_malformed render p hqb]
    | tail _ hmem =>
      by_cases hp : p.benign = true
      · simp [mapPoints, pointData_toJsVal render p hp, ih ⟨q, hmem, hqb⟩]
      · have hp0 : p.benign = false := by
          cases h : p.benign
          · rfl
          · exact absurd h hp
        simp [mapPoints, pointData_toJsVal_malformed render p hp0]

/-- Navigation of `extractTrackPoints` on the tree of a document with a
first track, a first segment and a nonempty point list reaches the point
map. -/
theorem extractTrackPoints_toJsVal (render : String → String) (d : GpxDoc)
    (t : Trk) (ts : List Trk) (s : TrkSeg) (ss : List TrkSeg)
    (ht : d.trks = t :: ts) (hs : t.trksegs = s :: ss) (hne : s.trkpts ≠ []) :
    extractTrackPoints render d.toJsVal = mapPoints render (s.trkpts.map TrkPt.toJsVal) := by
  obtain ⟨trks, md⟩ := d
  obtain ⟨segs⟩ := t
  obtain ⟨pts⟩ := s
  simp only at ht hs hne
  subst ht
  subst hs
  cases pts with
  | nil => exact absurd rfl hne
  | cons p ps =>
    simp [extractTrackPoints, GpxDoc.toJsVal, Trk.toJsVal, TrkSeg.toJsVal,
      JsVal.getProp, JsVal.getIndex, findField, jsArrayElems]

/-- Navigation of `extractTrackPoints` on the tree of a document with no
`trk` element: the index access on `undefined` throws. -/
theorem extractTrackPoints_toJsVal_noTrk (render : String → String) (d : GpxDoc)
    (ht : d.trks = []) :
    extractTrackPoints render d.toJsVal = .error () := by
  obtain ⟨trks, md⟩ := d
  simp only at ht
  subst ht
  cases md <;>
    simp [extractTrackPoints, GpxDoc.toJsVal, JsVal.getProp, JsVal.getIndex, findField]

/-- Navigation of `extractTrackPoints` on the tree of a document whose
first segment has zero points: the parsed segment node has no `trkpt`
key, so the call of `.map` on `undefined` throws. -/
theorem extractTrackPoints_toJsVal_noPts (render : String → String) (d : GpxDoc)
    (t : Trk) (ts : List Trk) (s : TrkSeg) (ss : List TrkSeg)
    (ht : d.trks = t :: ts) (hs : t.trksegs = s :: ss) (hpts : s.trkpts = []) :
    extractTrackPoints render d.toJsVal = .error () := by
  obtain ⟨trks, md⟩ := d
  obtain ⟨segs⟩ := t
  obtain ⟨pts⟩ := s
  simp only at ht hs hpts
  subst ht
  subst hs
  subst hpts
  simp [extractTrackPoints, GpxDoc.toJsVal, Trk.toJsVal, TrkSeg.toJsVal,
    JsVal.getProp, JsVal.getIndex, findField, jsArrayElems]

/-- Computation of `extractMetadata` on the tree of any abstract
document: it always succeeds and depends only on the metadata block. -/
theorem extractMetadata_toJsVal (d : GpxDoc) :
    extractMetadata d.toJsVal = .ok (metaRecordOf d.metadata) := by
  obtain ⟨trks, md⟩ := d
  cases md with
  | none =>
    cases trks <;>
      simp [extractMetadata, GpxDoc.toJsVal, metaRecordOf, JsVal.getProp,
        JsVal.getIndex, findField, truthy]
  | some m =>
    obtain ⟨nm, ds, au⟩ := m
    cases trks <;> cases nm <;> cases ds <;> cases au <;>
      simp [extractMetadata, GpxDoc.toJsVal, MetaBlock.toJsVal, metaRecordOf,
        childEntry, JsVal.getProp, JsVal.getIndex, findField, truthy]

theorem parseFloat_123_4 : parseFloatStr "123.4" = .rat (617 / 5) := by
  have h : parseFloatStr "123.4" = .rat (decimalRat false 123 4 1) := rfl
  rw [h]; norm_num [decimalRat]

theorem parseFloat_45_0 : parseFloatStr "45.0" = .rat 45 := by
  have h : parseFloatStr "45.0" = .rat (decimalRat false 45 0 1) := rfl
  rw [h]; norm_num [decimalRat]

theorem parseInt_150 : parseIntStr "150" = .rat 150 := by
  have h : parseIntStr "150" = .rat (intRat false 150) := rfl
  rw [h]; norm_num [intRat]

/-- Pipeline reduction of `getTrackPointsData` once loading and parsing
succeed on the tree of an abstract document. -/
theorem getTrackPointsData_ok (render : String → String)
    (fs : String → Except Unit String) (parseXml : String → Except Unit JsVal)
    (path data : String) (v : JsVal)
    (hf : fs path = .ok data) (hp : parseXml data = .ok v) :
    getTrackPointsData render fs parseXml path =
      match extractTrackPoints render v with
      | .ok datos => .ok datos
      | .error _ => .error .structureMismatch := by
  simp [getTrackPointsData, hf, hp]

/-- Pipeline reduction of `GetMetadata` once loading and parsing
succeed. -/
theorem GetMetadata_ok (fs : String → Except Unit String)
    (parseXml : String → Except Unit JsVal) (path data : String) (v : JsVal)
    (hf : fs path = .ok data) (hp : parseXml data = .ok v) :
    GetMetadata fs parseXml path =
      match extractMetadata v with
      | .ok md => .ok md
      | .error _ => .error .structureMismatch := by
  simp [GetMetadata, hf, hp]

/-- C1, corrected: on a document whose first track has a first segment
with at least one track point, each of whose extensions blocks (when
present) has the expected nested shape, `getTrackPointsData` resolves
with exactly one record per `trkpt` element, in document order (the
result is the pointwise image of the point list).  The case of zero
track points, which the claim as stated also covers, instead rejects:
see the counterexample. -/
theorem c1_count_and_order (render : String → String)
    (fs : String → Except Unit String) (parseXml : String → Except Unit JsVal)
    (path data : String) (d : GpxDoc) (t : Trk) (ts : List Trk)
    (s : TrkSeg) (ss : List TrkSeg)
    (hf : fs path = .ok data) (hp : parseXml data = .ok d.toJsVal)
    (ht : d.trks = t :: ts) (hs : t.trksegs = s :: ss)
    (hne : s.trkpts ≠ []) (hb : ∀ p ∈ s.trkpts, p.benign = true) :
    getTrackPointsData render fs parseXml path
      = .ok (s.trkpts.map (TrkPt.record render)) ∧
    (s.trkpts.map (TrkPt.record render)).length = s.trkpts.length := by
  have hx := extractTrackPoints_toJsVal render d t ts s ss ht hs hne
  have hm := mapPoints_toJsVal render s.trkpts hb
  refine ⟨?_, by simp⟩
  rw [getTrackPointsData_ok render fs parseXml path data d.toJsVal hf hp, hx, hm]

/-- C1, counterexample to the claim as stated: a well-formed document
whose first segment contains zero track points (so N equals 0) does not
resolve with a sequence of zero records; the parsed segment node has no
trkpt key, the `.map` call on `undefined` throws, and the promise is
rejected with a structure mismatch. -/
theorem c1_counterexample :
    getTrackPointsData id (fsOf "<gpx><trk><trkseg/></trk></gpx>")
      (parseOf docSegEmpty.toJsVal) "track.gpx"
      = .error .structureMismatch := rfl

/-- C1, witness: a concrete two-point document yields exactly the two
records in document order. -/
theorem c1_witness :
    getTrackPointsData id (fsOf "<gpx>two points</gpx>")
      (parseOf docTwoPts.toJsVal) "track.gpx"
      = .ok ([ptPlain, ptHr150].map (TrkPt.record id)) ∧
    ([ptPlain, ptHr150].map (TrkPt.record id)).length = [ptPlain, ptHr150].length := by
  exact c1_count_and_order id (fsOf "<gpx>two points</gpx>")
    (parseOf docTwoPts.toJsVal) "track.gpx" "<gpx>two points</gpx>" docTwoPts
    { trksegs := [{ trkpts := [ptPlain, ptHr150] }] } []
    { trkpts := [ptPlain, ptHr150] } [] rfl rfl rfl rfl (by decide) (by decide)

/-- C2, corrected: a document whose first track and first segment exist
but whose first segment contains zero track points makes
`getTrackPointsData` reject with a structure mismatch; the empty (not
absent) sequence claimed is not produced, because the parsed tree has no
trkpt list for an empty segment. -/
theorem c2_zero_points_rejects (render : String → String)
    (fs : String → Except Unit String) (parseXml : String → Except Unit JsVal)
    (path data : String) (d : GpxDoc) (t : Trk) (ts : List Trk)
    (s : TrkSeg) (ss : List TrkSeg)
    (hf : fs path = .ok data) (hp : parseXml data = .ok d.toJsVal)
    (ht : d.trks = t :: ts) (hs : t.trksegs = s :: ss) (hpts : s.trkpts = []) :
    getTrackPointsData render fs parseXml path = .error .structureMismatch := by
  have hx := extractTrackPoints_toJsVal_noPts render d t ts s ss ht hs hpts
  rw [getTrackPointsData_ok render fs parseXml path data d.toJsVal hf hp, hx]

/-- C2, counterexample to the claim as stated: on a concrete document
whose first segment has zero points the entry point does not resolve
with the empty sequence; it rejects. -/
theorem c2_counterexample :
    getTrackPointsData id (fsOf "<gpx><trk><trkseg/></trk></gpx>")
      (parseOf docSegEmpty.toJsVal) "empty.gpx"
      = .error .structureMismatch ∧
    getTrackPointsData id (fsOf "<gpx><trk><trkseg/></trk></gpx>")
      (parseOf docSegEmpty.toJsVal) "empty.gpx"
      ≠ .ok [] := by
  have h0 : getTrackPointsData id (fsOf "<gpx><trk><trkseg/></trk></gpx>")
      (parseOf docSegEmpty.toJsVal) "empty.gpx"
      = .error .structureMismatch := rfl
  refine ⟨h0, ?_⟩
  rw [h0]
  intro h
  exact Except.noConfusion h

/-- C2, witness for the amended statement at a concrete empty-segment
document. -/
theorem c2_witness :
    getTrackPointsData id (fsOf "<gpx>empty segment</gpx>")
      (parseOf docSegEmpty.toJsVal) "empty.gpx"
      = .error .structureMismatch := by
  exact c2_zero_points_rejects id (fsOf "<gpx>empty segment</gpx>")
    (parseOf docSegEmpty.toJsVal) "empty.gpx" "<gpx>empty segment</gpx>"
    docSegEmpty { trksegs := [{ trkpts := [] }] } [] { trkpts := [] } []
    rfl rfl rfl rfl rfl

/-- C3, confirmed: on a parsed document with no trk element,
`getTrackPointsData` rejects with a structure mismatch, while
`GetMetadata` on the same document succeeds with the record determined
by the metadata block alone; metadata extraction never navigates the
track path, so its outcome depends only on the metadata block. -/
theorem c3_no_trk_independent (render : String → String)
    (fs : String → Except Unit String) (parseXml : String → Except Unit JsVal)
    (path data : String) (d : GpxDoc)
    (hf : fs path = .ok data) (hp : parseXml data = .ok d.toJsVal)
    (ht : d.trks = []) :
    getTrackPointsData render fs parseXml path = .error .structureMismatch ∧
    GetMetadata fs parseXml path = .ok (metaRecordOf d.metadata) ∧
    (∀ d2 : GpxDoc, d2.metadata = d.metadata →
      extractMetadata d2.toJsVal = extractMetadata d.toJsVal) := by
  refine ⟨?_, ?_, ?_⟩
  · have hx := extractTrackPoints_toJsVal_noTrk render d ht
    rw [getTrackPointsData_ok render fs parseXml path data d.toJsVal hf hp, hx]
  · rw [GetMetadata_ok fs parseXml path data d.toJsVal hf hp,
      extractMetadata_toJsVal d]
  · intro d2 h2
    rw [extractMetadata_toJsVal d2, extractMetadata_toJsVal d, h2]

/-- C3, witness: a concrete document with no trk element but a named
metadata block rejects track extraction and succeeds for metadata. -/
theorem c3_witness :
    getTrackPointsData id (fsOf "<gpx>no track</gpx>")
      (parseOf docNoTrk.toJsVal) "meta.gpx" = .error .structureMismatch ∧
    GetMetadata (fsOf "<gpx>no track</gpx>") (parseOf docNoTrk.toJsVal) "meta.gpx"
      = .ok (metaRecordOf docNoTrk.metadata) ∧
    metaRecordOf docNoTrk.metadata
      = { name := some (JsVal.str "My Track"), desc := none, author := none } := by
  have h := c3_no_trk_independent id (fsOf "<gpx>no track</gpx>")
    (parseOf docNoTrk.toJsVal) "meta.gpx" "<gpx>no track</gpx>" docNoTrk
    rfl rfl rfl
  exact ⟨h.1, h.2.1, rfl⟩

/-- C4, confirmed: whenever the extraction succeeds, the produced record
of every point carries numeric (possibly NaN, never absent) latitude and
longitude fields, and a missing or non-numeric lat or lon attribute
raises no error; the not-a-number marker is placed in the record
instead.  The success conclusion holds with no assumption on any lat or
lon attribute. -/
theorem c4_latlon_never_absent (render : String → String)
    (fs : String → Except Unit String) (parseXml : String → Except Unit JsVal)
    (path data : String) (d : GpxDoc) (t : Trk) (ts : List Trk)
    (s : TrkSeg) (ss : List TrkSeg)
    (hf : fs path = .ok data) (hp : parseXml data = .ok d.toJsVal)
    (ht : d.trks = t :: ts) (hs : t.trksegs = s :: ss)
    (hne : s.trkpts ≠ []) (hb : ∀ p ∈ s.trkpts, p.benign = true) :
    getTrackPointsData render fs parseXml path
      = .ok (s.trkpts.map (TrkPt.record render)) ∧
    (∀ p ∈ s.trkpts,
      (p.lat = none → (p.record render).lat = JsNum.nan) ∧
      (∀ sl, p.lat = some sl → parseFloatStr sl = JsNum.nan →
        (p.record render).lat = JsNum.nan) ∧
      (p.lon = none → (p.record render).lon = JsNum.nan) ∧
      (∀ sl, p.lon = some sl → parseFloatStr sl = JsNum.nan →
        (p.record render).lon = JsNum.nan)) := by
  have hx := extractTrackPoints_toJsVal render d t ts s ss ht hs hne
  have hm := mapPoints_toJsVal render s.trkpts hb
  refine ⟨?_, ?_⟩
  · rw [getTrackPointsData_ok render fs parseXml path data d.toJsVal hf hp, hx, hm]
  · intro p _
    refine ⟨fun h => by simp [TrkPt.record, h], fun sl h hnan => by simp [TrkPt.record, h, hnan],
      fun h => by simp [TrkPt.record, h], fun sl h hnan => by simp [TrkPt.record, h, hnan]⟩

/-- C4, witness: a concrete point with the lat attribute missing and a
non-numeric lon attribute is extracted without error and both
coordinates carry the NaN marker. -/
theorem c4_witness :
    getTrackPointsData id (fsOf "<gpx>bad coords</gpx>")
      (parseOf docBadLatLon.toJsVal) "bad.gpx"
      = .ok ([ptBadLatLon].map (TrkPt.record id)) ∧
    (ptBadLatLon.record id).lat = JsNum.nan ∧
    (ptBadLatLon.record id).lon = JsNum.nan := by
  have h := c4_latlon_never_absent id (fsOf "<gpx>bad coords</gpx>")
    (parseOf docBadLatLon.toJsVal) "bad.gpx" "<gpx>bad coords</gpx>" docBadLatLon
    { trksegs := [{ trkpts := [ptBadLatLon] }] } [] { trkpts := [ptBadLatLon] } []
    rfl rfl rfl rfl (by decide) (by decide)
  have hp := h.2 ptBadLatLon (by simp)
  exact ⟨h.1, hp.1 rfl, hp.2.2.2 "abc" rfl rfl⟩

/-- C5, corrected: a point with no extensions child yields an absent
heart rate without failing; one with the correctly nested wrapper whose
heart-rate element has nonempty text yields that text parsed as an
integer; and an extensions child lacking the expected nested shape makes
the whole extraction reject with a structure mismatch.  The claim as
stated also covers a correctly nested heart-rate element with empty
text, where the code yields an absent heart rate rather than the parse
of the empty string: see the counterexample. -/
theorem c5_heart_rate_cases (render : String → String)
    (fs : String → Except Unit String) (parseXml : String → Except Unit JsVal)
    (path data : String) (d : GpxDoc) (t : Trk) (ts : List Trk)
    (s : TrkSeg) (ss : List TrkSeg)
    (hf : fs path = .ok data) (hp : parseXml data = .ok d.toJsVal)
    (ht : d.trks = t :: ts) (hs : t.trksegs = s :: ss) :
    (∀ p : TrkPt, p.ext = none →
      pointData render p.toJsVal = .ok (p.record render) ∧
      (p.record render).heartRate = none) ∧
    (∀ (p : TrkPt) (e : ExtBlock) (tw : TpxBlock) (hrs : String),
      p.ext = some e → e.tpx = some tw → tw.hr = some hrs → hrs ≠ "" →
      pointData render p.toJsVal = .ok (p.record render) ∧
      (p.record render).heartRate = some (parseIntStr hrs)) ∧
    ((∃ p ∈ s.trkpts, p.benign = false) →
      getTrackPointsData render fs parseXml path = .error .structureMismatch) := by
  refine ⟨?_, ?_, ?_⟩
  · intro p hext
    have hb : p.benign = true := by simp [TrkPt.benign, hext]
    exact ⟨pointData_toJsVal render p hb, by simp [TrkPt.record, hext]⟩
  · intro p e tw hrs hext htpx hhr hne
    have hb : p.benign = true := by simp [TrkPt.benign, hext, htpx, hhr]
    refine ⟨pointData_toJsVal render p hb, ?_⟩
    simp [TrkPt.record, hext, htpx, hhr, truthy, hne]
  · intro hbad
    have hne : s.trkpts ≠ [] := by
      obtain ⟨q, hq, _⟩ := hbad
      intro h0
      rw [h0] at hq
      simp at hq
    have hx := extractTrackPoints_toJsVal render d t ts s ss ht hs hne
    have hm := mapPoints_toJsVal_err render s.trkpts hbad
    rw [getTrackPointsData_ok render fs parseXml path data d.toJsVal hf hp, hx, hm]

/-- C5, counterexample to the claim as stated: a point with a correctly
nested track-point-extension wrapper whose heart-rate element exists
with empty text yields an absent heart rate, not the integer parse of
that text (which would be the NaN marker). -/
theorem c5_counterexample :
    getTrackPointsData id (fsOf "<gpx>empty hr</gpx>")
      (parseOf docHrEmpty.toJsVal) "hr.gpx" = .ok [ptHrEmpty.record id] ∧
    (ptHrEmpty.record id).heartRate = none ∧
    some (parseIntStr "") ≠ (none : Option JsNum) := by
  refine ⟨rfl, rfl, by simp⟩

/-- C5, witness: the three amended cases at concrete inputs: no
extensions child gives an absent heart rate; a nested hr text of 150
gives heart rate 150; a malformed extensions block rejects the whole
extraction. -/
theorem c5_witness :
    (pointData id ptPlain.toJsVal = .ok (ptPlain.record id) ∧
      (ptPlain.record id).heartRate = none) ∧
    (pointData id ptHr150.toJsVal = .ok (ptHr150.record id) ∧
      (ptHr150.record id).heartRate = some (parseIntStr "150")) ∧
    parseIntStr "150" = .rat 150 ∧
    getTrackPointsData id (fsOf "<gpx>bad ext</gpx>")
      (parseOf docBadExt.toJsVal) "ext.gpx" = .error .structureMismatch := by
  have h := c5_heart_rate_cases id (fsOf "<gpx>bad ext</gpx>")
    (parseOf docBadExt.toJsVal) "ext.gpx" "<gpx>bad ext</gpx>" docBadExt
    { trksegs := [{ trkpts := [ptBadExt] }] } [] { trkpts := [ptBadExt] } []
    rfl rfl rfl rfl
  refine ⟨h.1 ptPlain rfl, ?_, parseInt_150, ?_⟩
  · exact h.2.1 ptHr150 { tpx := some { hr := some "150" } } { hr := some "150" }
      "150" rfl rfl rfl (by decide)
  · exact h.2.2 ⟨ptBadExt, by simp, rfl⟩

/-- C6, confirmed: on a parsed document with no metadata block,
`GetMetadata` succeeds and returns the record with name, desc and
author all absent. -/
theorem c6_no_metadata_block (fs : String → Except Unit String)
    (parseXml : String → Except Unit JsVal) (path data : String) (d : GpxDoc)
    (hf : fs path = .ok data) (hp : parseXml data = .ok d.toJsVal)
    (hmd : d.metadata = none) :
    GetMetadata fs parseXml path
      = .ok { name := none, desc := none, author := none } := by
  rw [GetMetadata_ok fs parseXml path data d.toJsVal hf hp,
    extractMetadata_toJsVal d, hmd]
  rfl

/-- C6, witness: a concrete document without metadata yields the
all-absent record. -/
theorem c6_witness :
    GetMetadata (fsOf "<gpx>no metadata</gpx>") (parseOf docNoMeta.toJsVal) "t.gpx"
      = .ok { name := none, desc := none, author := none } := by
  exact c6_no_metadata_block (fsOf "<gpx>no metadata</gpx>")
    (parseOf docNoMeta.toJsVal) "t.gpx" "<gpx>no metadata</gpx>" docNoMeta
    rfl rfl rfl

/-- C7, confirmed: a failing file read makes both entry points reject
with the unreadable-document failure, and a successful read whose text
fails XML parsing makes both reject with the malformed-document
failure. -/
theorem c7_loader_parser_failures (render : String → String)
    (fs : String → Except Unit String) (parseXml : String → Except Unit JsVal)
    (path : String) :
    (fs path = .error () →
      getTrackPointsData render fs parseXml path = .error .documentUnreadable ∧
      GetMetadata fs parseXml path = .error .documentUnreadable) ∧
    (∀ data, fs path = .ok data → parseXml data = .error () →
      getTrackPointsData render fs parseXml path = .error .malformedDocument ∧
      GetMetadata fs parseXml path = .error .malformedDocument) := by
  refine ⟨fun hf => ⟨?_, ?_⟩, fun data hf hp => ⟨?_, ?_⟩⟩
  · simp [getTrackPointsData, hf]
  · simp [GetMetadata, hf]
  · simp [getTrackPointsData, hf, hp]
  · simp [GetMetadata, hf, hp]

/-- C7, witness: a loader that fails rejects both entry points as
unreadable, and a parser that fails rejects both as malformed. -/
theorem c7_witness :
    getTrackPointsData id (fun _ => Except.error ())
      (parseOf (JsVal.obj [])) "missing.gpx" = .error .documentUnreadable ∧
    GetMetadata (fun _ => Except.error ())
      (parseOf (JsVal.obj [])) "missing.gpx" = .error .documentUnreadable ∧
    getTrackPointsData id (fsOf "<gpx") (fun _ => Except.error ()) "broken.gpx"
      = .error .malformedDocument ∧
    GetMetadata (fsOf "<gpx") (fun _ => Except.error ()) "broken.gpx"
      = .error .malformedDocument := by
  have h1 := (c7_loader_parser_failures id (fun _ => Except.error ())
    (parseOf (JsVal.obj [])) "missing.gpx").1 rfl
  have h2 := (c7_loader_parser_failures id (fsOf "<gpx")
    (fun _ => Except.error ()) "broken.gpx").2 "<gpx" rfl rfl
  exact ⟨h1.1, h1.2, h2.1, h2.2⟩

/-- C8, confirmed: for every benign track point the callback succeeds
with its record; a missing ele child yields an absent elevation while an
ele child with nonempty text yields its decimal parse (123.4 for text
"123.4", see the witness); a missing time child yields an absent
timestamp while a time child with nonempty text yields the non-absent
locally rendered string of that text. -/
theorem c8_ele_time_fields (render : String → String) (p : TrkPt)
    (hb : p.benign = true) :
    pointData render p.toJsVal = .ok (p.record render) ∧
    (p.ele = none → (p.record render).elevation = none) ∧
    (∀ sv, p.ele = some sv → sv ≠ "" →
      (p.record render).elevation = some (parseFloatStr sv)) ∧
    (p.time = none → (p.record render).timestamp = none) ∧
    (∀ sv, p.time = some sv → sv ≠ "" →
      (p.record render).timestamp = some (render sv)) := by
  refine ⟨pointData_toJsVal render p hb, ?_, ?_, ?_, ?_⟩
  · intro h; simp [TrkPt.record, h]
  · intro sv h hne; simp [TrkPt.record, h, truthy, hne]
  · intro h; simp [TrkPt.record, h]
  · intro sv h hne; simp [TrkPt.record, h, truthy, hne]

/-- C8, witness: a concrete point with ele text "123.4" and time text
"2024-01-01T10:00:00Z" is extracted with elevation 123.4 and a
non-absent rendered timestamp (here rendered by the identity). -/
theorem c8_witness :
    pointData id ptEleTime.toJsVal = .ok (ptEleTime.record id) ∧
    (ptEleTime.record id).elevation = some (JsNum.rat (617 / 5)) ∧
    (ptEleTime.record id).timestamp = some "2024-01-01T10:00:00Z" := by
  have h := c8_ele_time_fields id ptEleTime rfl
  refine ⟨h.1, ?_, ?_⟩
  · have he := h.2.2.1 "123.4" rfl (by decide)
    rw [he, parseFloat_123_4]
  · exact h.2.2.2.2 "2024-01-01T10:00:00Z" rfl (by decide)

/-- C9, confirmed: both entry points are deterministic in the file
contents at the requested path: two calls against loaders that return
the same outcome for that path (in particular two calls against the
same unchanged file) yield identical outcomes, with no state carried
between calls. -/
theorem c9_deterministic (render : String → String)
    (fs fs2 : String → Except Unit String) (parseXml : String → Except Unit JsVal)
    (path : String) (h : fs path = fs2 path) :
    getTrackPointsData render fs parseXml path
      = getTrackPointsData render fs2 parseXml path ∧
    GetMetadata fs parseXml path = GetMetadata fs2 parseXml path := by
  constructor
  · simp only [getTrackPointsData, h]
  · simp only [GetMetadata, h]

/-- C9, witness: two loaders agreeing at the requested path (the second
failing elsewhere) give identical outcomes for both entry points. -/
theorem c9_witness :
    getTrackPointsData id (fsOf "<gpx>same</gpx>") (parseOf docNoMeta.toJsVal) "a.gpx"
      = getTrackPointsData id
        (fun q => if q = "other.gpx" then .error () else .ok "<gpx>same</gpx>")
        (parseOf docNoMeta.toJsVal) "a.gpx" ∧
    GetMetadata (fsOf "<gpx>same</gpx>") (parseOf docNoMeta.toJsVal) "a.gpx"
      = GetMetadata
        (fun q => if q = "other.gpx" then .error () else .ok "<gpx>same</gpx>")
        (parseOf docNoMeta.toJsVal) "a.gpx" := by
  exact c9_deterministic id (fsOf "<gpx>same</gpx>")
    (fun q => if q = "other.gpx" then .error () else .ok "<gpx>same</gpx>")
    (parseOf docNoMeta.toJsVal) "a.gpx" (by simp [fsOf])

/-- C10, confirmed: for every benign track point, an ele or time child
that exists with empty text yields the same absent marker as a missing
child, and a heart-rate element that exists with empty text under a
well-formed wrapper yields an absent heart rate; the empty text is
never parsed. -/
theorem c10_empty_text_fields (render : String → String) (p : TrkPt)
    (hb : p.benign = true) :
    pointData render p.toJsVal = .ok (p.record render) ∧
    (p.ele = some "" → (p.record render).elevation = none) ∧
    (p.time = some "" → (p.record render).timestamp = none) ∧
    (∀ (e : ExtBlock) (tw : TpxBlock), p.ext = some e → e.tpx = some tw →
      tw.hr = some "" → (p.record render).heartRate = none) := by
  refine ⟨pointData_toJsVal render p hb, ?_, ?_, ?_⟩
  · intro h; simp [TrkPt.record, h, truthy]
  · intro h; simp [TrkPt.record, h, truthy]
  · intro e tw hext htpx hhr; simp [TrkPt.record, hext, htpx, hhr, truthy]

/-- C10, witness: a concrete point whose ele, time and heart-rate
children all exist with empty text is extracted without error and all
three fields carry the absent marker. -/
theorem c10_witness :
    pointData id ptEmptyTexts.toJsVal = .ok (ptEmptyTexts.record id) ∧
    (ptEmptyTexts.record id).elevation = none ∧
    (ptEmptyTexts.record id).timestamp = none ∧
    (ptEmptyTexts.record id).heartRate = none := by
  have h := c10_empty_text_fields id ptEmptyTexts rfl
  exact ⟨h.1, h.2.1 rfl, h.2.2.1 rfl,
    h.2.2.2 { tpx := some { hr := some "" } } { hr := some "" } rfl rfl rfl⟩
